import Mathlib

/-!
Verification of the task-tracking backend (users, todos, auth services).

This file gives a shallow embedding of the business-logic slice of the
system: the dynamic query composer of the todos service (pagination,
filtering, search, sorting), the owner-or-admin access checks, the user
service (registration, list, cached reads, transactional role update) and
the credential verifier.  Each definition is translated from the
corresponding TypeScript source function and keeps its name.  TypeORM
where-clauses are modelled by an explicit syntax (`FindCond`,
`WhereClause`) together with their row-matching semantics, reflecting
TypeORM's rule that an array of condition objects is a disjunction while
the keys of a single object are conjoined.
-/

namespace ProjectCB

/-- Account roles: the `role` enum column, values `user` and `admin`. -/
inductive Role where
  | user
  | admin
deriving DecidableEq, Repr

/-- `UsersEntity`: id, unique username and email, bcrypt password hash,
role (defaults to `user`), creation timestamp (ms). -/
structure UsersEntity where
  id : Nat
  username : String
  email : String
  password : String
  role : Role
  createdAt : Nat
deriving DecidableEq, Repr

/-- `TodoEntity`: title (required), optional description, completion flag
(defaults false), owning account id, creation timestamp (ms). -/
structure TodoEntity where
  id : Nat
  title : String
  description : Option String
  isDone : Bool
  ownerId : Nat
  createdAt : Nat
deriving DecidableEq, Repr

/-- `JwtUser`: the authenticated identity carried by a request. -/
structure JwtUser where
  id : Nat
  username : String
  role : Role
deriving DecidableEq, Repr

/-- The error kinds raised by the services, with their messages. -/
inductive ServiceError where
  | notFound : String → ServiceError
  | forbidden : String → ServiceError
  | conflict : String → ServiceError
  | badRequest : String → ServiceError
  | unauthorized : String → ServiceError
deriving DecidableEq, Repr

/-- `QueryTodoDto`: raw list-request parameters for todos.  `isDone` is the
raw string query parameter (validated to be the literal "true"/"false");
`page`/`limit` are integers; dates are already-parsed timestamps. -/
structure QueryTodoDto where
  page : Option Int := none
  limit : Option Int := none
  isDone : Option String := none
  search : Option String := none
  dateFrom : Option Nat := none
  dateTo : Option Nat := none
  sortBy : Option String := none
  sortOrder : Option String := none
deriving DecidableEq, Repr

/-- `QueryUserDto`: raw list-request parameters for users (pagination only). -/
structure QueryUserDto where
  page : Option Int := none
  limit : Option Int := none
deriving DecidableEq, Repr

/-- Result of `buildPaginationParams`. -/
structure PaginationParams where
  page : Int
  limit : Int
  skip : Int
deriving DecidableEq, Repr

/-- `TodosService.buildPaginationParams`: page floored at 1, limit clamped
to [1,100], skip = (page - 1) * limit. -/
def buildPaginationParams (query : QueryTodoDto) : PaginationParams :=
  let page := max 1 (query.page.getD 1)
  let limit := min 100 (max 1 (query.limit.getD 10))
  { page := page, limit := limit, skip := (page - 1) * limit }

/-- One TypeORM find-condition object.  Every present key is a conjunctive
constraint on a row; `title`/`description` hold the inner term of a
`Like` pattern of the shape percent-term-percent. -/
structure FindCond where
  ownerId : Option Nat := none
  isDone : Option Bool := none
  createdAt : Option (Nat × Nat) := none
  title : Option String := none
  description : Option String := none
deriving DecidableEq, Repr

/-- Whether a character list starts with the given pattern. -/
def charsStartWith : List Char → List Char → Bool
  | _, [] => true
  | [], _ :: _ => false
  | a :: as, b :: bs => a == b && charsStartWith as bs

/-- Whether a character list contains the given pattern as a contiguous run. -/
def charsContain : List Char → List Char → Bool
  | [], pat => pat.isEmpty
  | a :: as, pat => charsStartWith (a :: as) pat || charsContain as pat

/-- Semantics of `Like` with a pattern percent-term-percent: substring
match (modelled case-sensitively; collation dependent in the store). -/
def likeMatches (term : String) (s : String) : Bool :=
  charsContain s.data term.data

/-- Row semantics of a single condition object: all present keys must hold.
A `Like` on a NULL description never matches (SQL three-valued logic). -/
def condMatches (c : FindCond) (t : TodoEntity) : Bool :=
  (match c.ownerId with
   | none => true
   | some o => t.ownerId == o) &&
  (match c.isDone with
   | none => true
   | some b => t.isDone == b) &&
  (match c.createdAt with
   | none => true
   | some lohi => decide (lohi.1 ≤ t.createdAt) && decide (t.createdAt ≤ lohi.2)) &&
  (match c.title with
   | none => true
   | some s => likeMatches s t.title) &&
  (match c.description with
   | none => true
   | some s =>
     match t.description with
     | none => false
     | some d => likeMatches s d)

/-- The where-clause shape handed to TypeORM: a single object, or an array
of objects which TypeORM interprets as a disjunction. -/
inductive WhereClause where
  | single : FindCond → WhereClause
  | anyOf : List FindCond → WhereClause
deriving DecidableEq, Repr

/-- Row semantics of a where-clause. -/
def whereMatches : WhereClause → TodoEntity → Bool
  | .single c, t => condMatches c t
  | .anyOf cs, t => cs.any fun c => condMatches c t

/-- `TodosService.buildDateFilter`: with a lower bound, range up to the
given upper bound or now; with only an upper bound, range from the epoch. -/
def buildDateFilter (now : Nat) (dateFrom dateTo : Option Nat) : FindCond :=
  match dateFrom with
  | some f => { createdAt := some (f, dateTo.getD now) }
  | none =>
    match dateTo with
    | some t => { createdAt := some (0, t) }
    | none => {}

/-- `TodosService.buildSearchConditions`: for a non-empty term, one `Like`
condition on title and one on description (an empty or missing term is
falsy in the source and yields no conditions). -/
def buildSearchConditions (search : Option String) : List FindCond :=
  match search with
  | none => []
  | some s => if s = "" then [] else [{ title := some s }, { description := some s }]

/-- JavaScript object spread: keys of `b` override keys of `a`. -/
def spreadOpt {α : Type} (a b : Option α) : Option α :=
  match b with
  | some x => some x
  | none => a

/-- Spread of two condition objects, as in the source's spread of a filter
object with a search object. -/
def spreadCond (a b : FindCond) : FindCond :=
  { ownerId := spreadOpt a.ownerId b.ownerId
    isDone := spreadOpt a.isDone b.isDone
    createdAt := spreadOpt a.createdAt b.createdAt
    title := spreadOpt a.title b.title
    description := spreadOpt a.description b.description }

/-- `TodosService.combineWhereConditions`: with both filters and search,
every filter object is spread with the title search and, separately, with
the description search, and the results are concatenated into one array;
with only filters, a single object when there is one filter, otherwise the
array of filters; with only search, the search array; otherwise the empty
object. -/
def combineWhereConditions (whereConditions searchConditions : List FindCond) : WhereClause :=
  if whereConditions.length > 0 ∧ searchConditions.length > 0 then
    .anyOf ((whereConditions.map fun c => spreadCond c (searchConditions.getD 0 {})) ++
            (whereConditions.map fun c => spreadCond c (searchConditions.getD 1 {})))
  else if whereConditions.length > 0 then
    if whereConditions.length = 1 then .single (whereConditions.getD 0 {}) else .anyOf whereConditions
  else if searchConditions.length > 0 then
    .anyOf searchConditions
  else
    .single {}

/-- `TodosService.buildWhereConditions`: pushes the ownership filter for
non-admin requesters, the completion filter when `isDone` is given, the
date filter when a bound is given, then combines with the search
conditions. -/
def buildWhereConditions (now : Nat) (user : JwtUser) (query : QueryTodoDto) : WhereClause :=
  let whereConditions : List FindCond :=
    (if user.role ≠ Role.admin then [{ ownerId := some user.id }] else []) ++
    (match query.isDone with
     | some s => [{ isDone := some (s == "true") }]
     | none => []) ++
    (if query.dateFrom.isSome || query.dateTo.isSome then
       [buildDateFilter now query.dateFrom query.dateTo]
     else [])
  combineWhereConditions whereConditions (buildSearchConditions query.search)

/-- Modelled from the spec: the intended row semantics of a list request,
"(ownership-and-status-and-date filters) AND (title MATCHES term OR
description MATCHES term)".  Used only to compare the composer's output
against the specified semantics. -/
def specListFilter (now : Nat) (user : JwtUser) (query : QueryTodoDto) (t : TodoEntity) : Bool :=
  (if user.role ≠ Role.admin then t.ownerId == user.id else true) &&
  (match query.isDone with
   | none => true
   | some s => t.isDone == (s == "true")) &&
  (if query.dateFrom.isSome || query.dateTo.isSome then
     condMatches (buildDateFilter now query.dateFrom query.dateTo) t
   else true) &&
  (match query.search with
   | none => true
   | some s =>
     if s = "" then true
     else likeMatches s t.title ||
       (match t.description with
        | none => false
        | some d => likeMatches s d))

/-- The sort-field allow-list of `buildOrderClause`. -/
def allowedSortFields : List String := ["id", "title", "isDone", "createdAt", "updatedAt"]

/-- The effective sort field: the given one, or createdAt when absent (an
empty string is falsy in the source and also yields the default). -/
def effSortField (query : QueryTodoDto) : String :=
  match query.sortBy with
  | none => "createdAt"
  | some s => if s = "" then "createdAt" else s

/-- The effective sort direction before upper-casing: desc by default. -/
def effSortOrder (query : QueryTodoDto) : String :=
  match query.sortOrder with
  | none => "desc"
  | some s => if s = "" then "desc" else s

/-- JavaScript `toUpperCase`, modelled character-wise. -/
def toUpperStr (s : String) : String :=
  ⟨s.data.map Char.toUpper⟩

/-- `TodosService.buildOrderClause`: validates the sort field against the
allow-list and returns the order pair, or a BadRequest naming the invalid
field and the allowed set. -/
def buildOrderClause (query : QueryTodoDto) : Except ServiceError (String × String) :=
  let sortBy := effSortField query
  let sortOrder := effSortOrder query
  if allowedSortFields.contains sortBy then
    .ok (sortBy, toUpperStr sortOrder)
  else
    .error (.badRequest ("Invalid sort field: " ++ sortBy ++ ". Allowed fields: " ++
      String.intercalate ", " allowedSortFields))

/-- `CreateTodoDto`: title required, description and completion optional. -/
structure CreateTodoDto where
  title : String
  description : Option String := none
  isDone : Option Bool := none
deriving DecidableEq, Repr

/-- `UpdateTodoDto`: every field optional; only present fields are applied. -/
structure UpdateTodoDto where
  title : Option String := none
  description : Option String := none
  isDone : Option Bool := none
deriving DecidableEq, Repr

/-- `todoRepository.findOne` by primary key. -/
def findTodoById (db : List TodoEntity) (id : Nat) : Option TodoEntity :=
  db.find? fun t => t.id == id

/-- `TodosService.assertCanAccess`: admins may access every todo; other
requesters only todos they own. -/
def assertCanAccess (todo : TodoEntity) (user : JwtUser) : Except ServiceError Unit :=
  if user.role = Role.admin then .ok ()
  else if todo.ownerId ≠ user.id then
    .error (.forbidden "You are not allowed to access this resource")
  else .ok ()

/-- `TodosService.createTodo`: builds the entity from the dto with the
completion flag defaulting to false and the owner set to the requester;
the store assigns the id and the creation timestamp. -/
def createTodo (owner : JwtUser) (dto : CreateTodoDto) (nextId now : Nat) : TodoEntity :=
  { id := nextId
    title := dto.title
    description := dto.description
    isDone := dto.isDone.getD false
    ownerId := owner.id
    createdAt := now }

/-- `TodosService.findOneTodo`: NotFound when absent, then the access check. -/
def findOneTodo (db : List TodoEntity) (id : Nat) (user : JwtUser) :
    Except ServiceError TodoEntity :=
  match findTodoById db id with
  | none => .error (.notFound "Todo not found")
  | some todo =>
    match assertCanAccess todo user with
    | .error e => .error e
    | .ok _ => .ok todo

/-- `Object.assign(todo, dto)`: fields present in the dto overwrite the
entity, absent fields keep their prior value. -/
def applyUpdate (todo : TodoEntity) (dto : UpdateTodoDto) : TodoEntity :=
  { todo with
    title := dto.title.getD todo.title
    description := spreadOpt todo.description dto.description
    isDone := dto.isDone.getD todo.isDone }

/-- `TodosService.updateTodo`: load, access check, assign the patch, save.
Returns the service result together with the store after the call. -/
def updateTodo (db : List TodoEntity) (id : Nat) (user : JwtUser) (dto : UpdateTodoDto) :
    Except ServiceError TodoEntity × List TodoEntity :=
  match findTodoById db id with
  | none => (.error (.notFound "Todo not found"), db)
  | some todo =>
    match assertCanAccess todo user with
    | .error e => (.error e, db)
    | .ok _ =>
      let updated := applyUpdate todo dto
      (.ok updated, db.map fun t => if t.id == id then updated else t)

/-- `TodosService.removeTodo`: load, access check, permanent delete by
primary key.  Returns the service result together with the store after. -/
def removeTodo (db : List TodoEntity) (id : Nat) (user : JwtUser) :
    Except ServiceError Bool × List TodoEntity :=
  match findTodoById db id with
  | none => (.error (.notFound "Todo not found"), db)
  | some todo =>
    match assertCanAccess todo user with
    | .error e => (.error e, db)
    | .ok _ => (.ok true, db.filter fun t => t.id != todo.id)

/-- `CreateUsersDto`: registration data. -/
structure CreateUsersDto where
  username : String
  email : String
  password : String
deriving DecidableEq, Repr

/-- The account as returned to callers of `createUser`: every column of
`UsersEntity` except the password hash (the destructured rest object). -/
structure PublicUser where
  id : Nat
  username : String
  email : String
  role : Role
  createdAt : Nat
deriving DecidableEq, Repr

/-- The destructuring that removes the password before returning. -/
def stripPassword (u : UsersEntity) : PublicUser :=
  { id := u.id, username := u.username, email := u.email, role := u.role,
    createdAt := u.createdAt }

/-- `usersRepository.findOne` by username. -/
def findUserByUsername (db : List UsersEntity) (username : String) : Option UsersEntity :=
  db.find? fun u => u.username == username

/-- `usersRepository.findOne` by primary key. -/
def findUserById (db : List UsersEntity) (id : Nat) : Option UsersEntity :=
  db.find? fun u => u.id == id

/-- `UserService.findByUsernameOrEmail`: single lookup with an OR
condition on username and email. -/
def findByUsernameOrEmail (db : List UsersEntity) (usernameOrEmail : String) :
    Option UsersEntity :=
  db.find? fun u => u.username == usernameOrEmail || u.email == usernameOrEmail

/-- The entity built and saved by `createUser`: hashed password, role left
to its column default `user`; the store assigns id and timestamp. -/
def mkNewUser (hash : String → String) (nextId now : Nat) (dto : CreateUsersDto) :
    UsersEntity :=
  { id := nextId
    username := dto.username
    email := dto.email
    password := hash dto.password
    role := Role.user
    createdAt := now }

/-- Outcome of `createUser`: the service result, the store after the call,
and how many times the hash primitive ran during the call. -/
structure CreateUserOutcome where
  result : Except ServiceError PublicUser
  store : List UsersEntity
  hashCalls : Nat
deriving Repr

/-- `UserService.createUser`: Conflict when the username already exists
(checked before any hashing), otherwise hash, persist, and return the
account without its password. -/
def createUser (hash : String → String) (nextId now : Nat) (db : List UsersEntity)
    (dto : CreateUsersDto) : CreateUserOutcome :=
  match findUserByUsername db dto.username with
  | some _ =>
    { result := .error (.conflict "Username already exists"), store := db, hashCalls := 0 }
  | none =>
    let user := mkNewUser hash nextId now dto
    { result := .ok (stripPassword user), store := db ++ [user], hashCalls := 1 }

/-- `AuthService.validateUser`: looks the account up by username or email
and compares the presented secret with the stored hash through the
comparison primitive. -/
def validateUser (compare : String → String → Bool) (db : List UsersEntity)
    (usernameOrEmail password : String) : Except ServiceError UsersEntity :=
  match findByUsernameOrEmail db usernameOrEmail with
  | none => .error (.unauthorized "User not found")
  | some user =>
    if compare password user.password then .ok user
    else .error (.unauthorized "Wrong password")

/-- Insert into a list kept in descending `createdAt` order. -/
def insertByCreatedAtDesc (u : UsersEntity) : List UsersEntity → List UsersEntity
  | [] => [u]
  | v :: vs =>
    if v.createdAt ≤ u.createdAt then u :: v :: vs else v :: insertByCreatedAtDesc u vs

/-- The store's ORDER BY createdAt DESC, modelled as an insertion sort. -/
def sortByCreatedAtDesc : List UsersEntity → List UsersEntity
  | [] => []
  | u :: us => insertByCreatedAtDesc u (sortByCreatedAtDesc us)

/-- The pagination metadata block returned by the user list. -/
structure PaginationMeta where
  page : Int
  limit : Int
  total : Nat
  totalPages : Nat
  hasNextPage : Bool
  hasPrevPage : Bool
deriving DecidableEq, Repr

/-- Result of `UserService.findAll`. -/
structure FindAllUsersResult where
  users : List UsersEntity
  pagination : PaginationMeta
deriving Repr

/-- `UserService.findAll`: the same clamping as the todos pagination,
a findAndCount ordered by creation time descending, and the metadata. -/
def findAllUsers (db : List UsersEntity) (query : QueryUserDto) : FindAllUsersResult :=
  let page := max 1 (query.page.getD 1)
  let limit := min 100 (max 1 (query.limit.getD 10))
  let skip := (page - 1) * limit
  let users := ((sortByCreatedAtDesc db).drop skip.toNat).take limit.toNat
  let total := db.length
  let totalPages := (total + limit.toNat - 1) / limit.toNat
  { users := users
    pagination :=
      { page := page, limit := limit, total := total, totalPages := totalPages
        hasNextPage := decide (page < (totalPages : Int))
        hasPrevPage := decide (page > 1) } }

/-- The user service's in-process state: the persistent store and the
module-level read-through cache (id to last snapshot). -/
structure SysState where
  store : List UsersEntity
  cache : List (Nat × UsersEntity)
deriving Repr

/-- `Map.get`-after-`Map.has` on the cache. -/
def cacheGet (cache : List (Nat × UsersEntity)) (id : Nat) : Option UsersEntity :=
  (cache.find? fun p => p.1 == id).map (·.2)

/-- `Map.set`: unconditional overwrite of the entry for the id. -/
def cacheSet (cache : List (Nat × UsersEntity)) (id : Nat) (u : UsersEntity) :
    List (Nat × UsersEntity) :=
  (id, u) :: cache.filter fun p => p.1 != id

/-- Outcome of `findById`: the service result, the state after the call,
and whether the store was queried during the call. -/
structure FindByIdOutcome where
  result : Except ServiceError UsersEntity
  state : SysState
  storeQueried : Bool
deriving Repr

/-- `UserService.findById`: cache first (no store access on a hit), then
the store, populating the cache on a store hit; NotFound otherwise. -/
def findById (st : SysState) (id : Nat) : FindByIdOutcome :=
  match cacheGet st.cache id with
  | some u => { result := .ok u, state := st, storeQueried := false }
  | none =>
    match findUserById st.store id with
    | none => { result := .error (.notFound "User not found"), state := st, storeQueried := true }
    | some u =>
      { result := .ok u, state := { st with cache := cacheSet st.cache id u },
        storeQueried := true }

/-- Number of accounts whose role is admin (the transactional count). -/
def adminCount (db : List UsersEntity) : Nat :=
  db.countP fun u => u.role == Role.admin

/-- The role write inside the transaction: the row with the target primary
key is replaced by the updated entity. -/
def updateStoreRole (db : List UsersEntity) (id : Nat) (updated : UsersEntity) :
    List UsersEntity :=
  db.map fun u => if u.id == id then updated else u

/-- Outcome of `updateRole`: the service result and the state after. -/
structure UpdateRoleOutcome where
  result : Except ServiceError UsersEntity
  state : SysState
deriving Repr

/-- The commit path of `updateRole`: assign the new role, save inside the
transaction, commit, then refresh the cache entry. -/
def updateRoleCommit (st : SysState) (id : Nat) (user : UsersEntity) (newRole : Role) :
    UpdateRoleOutcome :=
  let updated := { user with role := newRole }
  { result := .ok updated
    state := { store := updateStoreRole st.store id updated
               cache := cacheSet st.cache id updated } }

/-- `UserService.updateRole`: inside one transaction, load the target via
`findById`, guard the last-admin downgrade against the live admin count,
then write and commit; any failure rolls the store back (the in-memory
cache writes done by `findById` are not part of the transaction). -/
def updateRole (st : SysState) (id : Nat) (newRole : Role) : UpdateRoleOutcome :=
  let fr := findById st id
  match fr.result with
  | .error e => { result := .error e, state := fr.state }
  | .ok user =>
    if user.role = Role.admin ∧ newRole ≠ Role.admin then
      if adminCount fr.state.store ≤ 1 then
        { result := .error (.conflict "Cannot downgrade the last admin user"), state := fr.state }
      else
        updateRoleCommit fr.state id user newRole
    else
      updateRoleCommit fr.state id user newRole

/-- A sequence of role updates applied one after the other. -/
def applyRoleUpdates (st : SysState) : List (Nat × Role) → SysState
  | [] => st
  | (i, r) :: ops => applyRoleUpdates (updateRole st i r).state ops

/-- Primary keys of the store are unique. -/
def idsNodup (db : List UsersEntity) : Prop :=
  (db.map (·.id)).Nodup

/-- Cache coherence: every cached snapshot is exactly what the store
lookup by that id returns. -/
def cacheCoherent (st : SysState) : Prop :=
  ∀ id u, cacheGet st.cache id = some u → findUserById st.store id = some u

/-- The state invariant for the role-update safety argument: unique
primary keys, a coherent cache, and at least one admin account. -/
def goodState (st : SysState) : Prop :=
  idsNodup st.store ∧ cacheCoherent st ∧ 1 ≤ adminCount st.store

/-- Concrete sample account used to instantiate the theorems. -/
def alice : UsersEntity :=
  { id := 1, username := "alice", email := "a@x.com", password := "H",
    role := Role.admin, createdAt := 0 }

/-- Concrete second account (also an admin) used to instantiate theorems. -/
def bob : UsersEntity :=
  { id := 2, username := "bob", email := "b@x.com", password := "H2",
    role := Role.admin, createdAt := 1 }

/-- A state whose store holds only the admin alice, with an empty cache. -/
def aliceOnlyState : SysState := { store := [alice], cache := [] }

/-- A state with two admins in the store and an empty cache. -/
def twoAdminState : SysState := { store := [alice, bob], cache := [] }

/-- A concrete todo owned by account 2, used to instantiate the theorems. -/
def sampleTodo : TodoEntity :=
  { id := 7, title := "t", description := none, isDone := false, ownerId := 2,
    createdAt := 0 }

/-- A concrete non-admin requester with id 1. -/
def requester1 : JwtUser := { id := 1, username := "u1", role := Role.user }

/-- The string-equality comparison primitive used to instantiate the
credential theorems (stands in for the bcrypt comparison). -/
def eqCompare (p h : String) : Bool := p == h

/-- Setting a cache entry makes it the one returned for that id. -/
theorem cacheGet_cacheSet_self (cache : List (Nat × UsersEntity)) (id : Nat)
    (u : UsersEntity) : cacheGet (cacheSet cache id u) id = some u := by
  simp [cacheGet, cacheSet]

/-- Setting a cache entry leaves every other id unchanged. -/
theorem cacheGet_cacheSet_ne (cache : List (Nat × UsersEntity)) (id i : Nat)
    (u : UsersEntity) (h : i ≠ id) : cacheGet (cacheSet cache id u) i = cacheGet cache i := by
  simp only [cacheGet, cacheSet]
  rw [List.find?_cons_of_neg _ (by simp; omega)]
  induction cache with
  | nil => rfl
  | cons p ps ih =>
    by_cases hp : p.1 = id
    · rw [List.filter_cons_of_neg (by simp [hp]),
        List.find?_cons_of_neg _ (by simp [hp]; omega)]
      exact ih
    · rw [List.filter_cons_of_pos (by simp [hp])]
      by_cases hq : p.1 = i
      · rw [List.find?_cons_of_pos _ (by simp [hq]), List.find?_cons_of_pos _ (by simp [hq])]
      · rw [List.find?_cons_of_neg _ (by simp [hq]), List.find?_cons_of_neg _ (by simp [hq])]
        exact ih

/-- A store lookup by primary key returns a member with that key. -/
theorem findUserById_mem (db : List UsersEntity) (id : Nat) (u : UsersEntity)
    (h : findUserById db id = some u) : u ∈ db ∧ u.id = id := by
  refine ⟨List.mem_of_find?_eq_some h, ?_⟩
  have := List.find?_some h
  simpa using this

/-- An absent primary key means no row carries it. -/
theorem findUserById_eq_none (db : List UsersEntity) (id : Nat) :
    findUserById db id = none ↔ ∀ u ∈ db, u.id ≠ id := by
  simp [findUserById, List.find?_eq_none]

/-- Replacing a key that occurs nowhere is a no-op. -/
theorem updateStoreRole_of_not_mem (db : List UsersEntity) (id : Nat)
    (updated : UsersEntity) (h : ∀ x ∈ db, x.id ≠ id) :
    updateStoreRole db id updated = db := by
  induction db with
  | nil => rfl
  | cons u us ih =>
    have hu : (u.id == id) = false := by simpa using h u (by simp)
    have ih2 := ih fun x hx => h x (by simp [hx])
    simp only [updateStoreRole, List.map_cons, hu, Bool.false_eq_true, if_false]
    simp only [updateStoreRole] at ih2
    rw [ih2]

/-- The role write preserves the list of primary keys. -/
theorem updateStoreRole_map_id (db : List UsersEntity) (id : Nat) (updated : UsersEntity)
    (h : updated.id = id) :
    (updateStoreRole db id updated).map (·.id) = db.map (·.id) := by
  simp only [updateStoreRole, List.map_map]
  refine List.map_congr_left fun a _ => ?_
  by_cases ha : a.id = id
  · simp [Function.comp, ha, h]
  · simp [Function.comp, ha]

/-- Looking the written key up after the role write returns the updated
row, provided the key was present before. -/
theorem findUserById_updateStoreRole_self (db : List UsersEntity) (id : Nat)
    (updated u0 : UsersEntity) (h0 : findUserById db id = some u0) (hu : updated.id = id) :
    findUserById (updateStoreRole db id updated) id = some updated := by
  induction db with
  | nil => simp [findUserById] at h0
  | cons u us ih =>
    by_cases hid : u.id = id
    · have hb : (u.id == id) = true := by simpa using hid
      simp only [updateStoreRole, List.map_cons, hb, if_true, findUserById, List.find?]
      simp [hu]
    · have hb : (u.id == id) = false := by simpa using hid
      simp only [findUserById, List.find?, hb] at h0
      simp only [updateStoreRole, List.map_cons, hb, Bool.false_eq_true, if_false,
        findUserById, List.find?]
      simpa [updateStoreRole, findUserById, hb] using ih h0

/-- The role write leaves every other primary key's lookup unchanged. -/
theorem findUserById_updateStoreRole_ne (db : List UsersEntity) (id i : Nat)
    (updated : UsersEntity) (hu : updated.id = id) (h : i ≠ id) :
    findUserById (updateStoreRole db id updated) i = findUserById db i := by
  induction db with
  | nil => rfl
  | cons u us ih =>
    by_cases hid : u.id = id
    · have hb : (u.id == id) = true := by simpa using hid
      have h1 : (updated.id == i) = false := by simpa [hu] using fun e => h e.symm
      have h2 : (u.id == i) = false := by simpa [hid] using fun e => h e.symm
      simp only [updateStoreRole, List.map_cons, hb, if_true, findUserById, List.find?, h1, h2]
      simpa [updateStoreRole, findUserById] using ih
    · have hb : (u.id == id) = false := by simpa using hid
      simp only [updateStoreRole, List.map_cons, hb, Bool.false_eq_true, if_false,
        findUserById, List.find?]
      by_cases h2 : u.id = i
      · simp [h2]
      · have h3 : (u.id == i) = false := by simpa using h2
        simpa [updateStoreRole, findUserById, h3] using ih

/-- With unique primary keys, replacing the row that a lookup returned
changes the admin count by exactly the difference of the two rows. -/
theorem adminCount_updateStoreRole (db : List UsersEntity) (id : Nat)
    (updated u0 : UsersEntity) (hn : idsNodup db) (h0 : u0 ∈ db) (hid : u0.id = id) :
    adminCount (updateStoreRole db id updated) +
      (if u0.role = Role.admin then 1 else 0) =
    adminCount db + (if updated.role = Role.admin then 1 else 0) := by
  induction db with
  | nil => cases h0
  | cons u us ih =>
    simp only [idsNodup, List.map_cons, List.nodup_cons, List.mem_map] at hn
    obtain ⟨hnotin, hnd⟩ := hn
    rcases List.mem_cons.mp h0 with rfl | h0
    · have hb : (u0.id == id) = true := by simpa using hid
      have hrest : updateStoreRole us id updated = us := by
        refine updateStoreRole_of_not_mem us id updated fun x hx hxid => ?_
        exact hnotin ⟨x, hx, by omega⟩
      simp only [updateStoreRole, List.map_cons, hb, if_true]
      simp only [updateStoreRole] at hrest
      rw [hrest]
      simp only [adminCount, List.countP_cons]
      by_cases h1 : updated.role = Role.admin <;> by_cases h2 : u0.role = Role.admin <;>
        simp [h1, h2]
    · have huid : u.id ≠ id := by
        intro he
        exact hnotin ⟨u0, h0, by omega⟩
      have hb : (u.id == id) = false := by simpa using huid
      have hrec := ih hnd h0
      simp only [updateStoreRole, adminCount] at hrec
      simp only [updateStoreRole, List.map_cons, hb, Bool.false_eq_true, if_false,
        adminCount, List.countP_cons] at hrec ⊢
      omega

/-- `findById` on a cache hit: no state change, no store access. -/
theorem findById_cache_hit (st : SysState) (id : Nat) (u : UsersEntity)
    (h : cacheGet st.cache id = some u) :
    findById st id = { result := .ok u, state := st, storeQueried := false } := by
  unfold findById; rw [h]

/-- `findById` on a cache miss with a store hit: populates the cache. -/
theorem findById_cache_miss_store_hit (st : SysState) (id : Nat) (u : UsersEntity)
    (hc : cacheGet st.cache id = none) (hs : findUserById st.store id = some u) :
    findById st id =
      { result := .ok u, state := { st with cache := cacheSet st.cache id u },
        storeQueried := true } := by
  unfold findById; rw [hc, hs]

/-- `findById` when the id is absent from cache and store. -/
theorem findById_absent (st : SysState) (id : Nat)
    (hc : cacheGet st.cache id = none) (hs : findUserById st.store id = none) :
    findById st id =
      { result := .error (.notFound "User not found"), state := st, storeQueried := true } := by
  unfold findById; rw [hc, hs]

/-- `findById` never touches the store. -/
theorem findById_store (st : SysState) (id : Nat) :
    (findById st id).state.store = st.store := by
  unfold findById
  cases cacheGet st.cache id
  · cases findUserById st.store id <;> rfl
  · rfl

/-- With a coherent cache, a successful `findById` returns exactly the
store row for that id. -/
theorem findById_ok_store (st : SysState) (id : Nat) (u : UsersEntity)
    (hco : cacheCoherent st) (h : (findById st id).result = .ok u) :
    findUserById st.store id = some u := by
  cases hc : cacheGet st.cache id with
  | some v =>
    rw [findById_cache_hit st id v hc] at h
    cases h
    exact hco id u hc
  | none =>
    cases hs : findUserById st.store id with
    | none => rw [findById_absent st id hc hs] at h; cases h
    | some v =>
      rw [findById_cache_miss_store_hit st id v hc hs] at h
      have hvu : v = u := by simpa using h
      exact congrArg some hvu

/-- `findById` preserves cache coherence. -/
theorem cacheCoherent_findById (st : SysState) (id : Nat) (h : cacheCoherent st) :
    cacheCoherent (findById st id).state := by
  cases hc : cacheGet st.cache id with
  | some v => rw [findById_cache_hit st id v hc]; exact h
  | none =>
    cases hs : findUserById st.store id with
    | none => rw [findById_absent st id hc hs]; exact h
    | some v =>
      rw [findById_cache_miss_store_hit st id v hc hs]
      intro i u hi
      by_cases hii : i = id
      · subst hii
        rw [cacheGet_cacheSet_self] at hi
        cases hi
        exact hs
      · rw [cacheGet_cacheSet_ne _ _ _ _ hii] at hi
        exact h i u hi

/-- The commit path preserves cache coherence. -/
theorem cacheCoherent_commit (st2 : SysState) (id : Nat) (user : UsersEntity) (newRole : Role)
    (hco : cacheCoherent st2) (hs : findUserById st2.store id = some user) :
    cacheCoherent (updateRoleCommit st2 id user newRole).state := by
  have hid : user.id = id := (findUserById_mem _ _ _ hs).2
  intro i w hi
  unfold updateRoleCommit at hi ⊢
  simp only at hi ⊢
  by_cases hii : i = id
  · subst hii
    rw [cacheGet_cacheSet_self] at hi
    cases hi
    exact findUserById_updateStoreRole_self _ _ _ _ hs hid
  · rw [cacheGet_cacheSet_ne _ _ _ _ hii] at hi
    rw [findUserById_updateStoreRole_ne st2.store id i { user with role := newRole } hid hii]
    exact hco i w hi

/-- The commit path preserves the whole invariant, given that the guard
condition did not hold (so either it is not a downgrade of an admin, or
there were at least two admins). -/
theorem goodState_commit (st2 : SysState) (id : Nat) (user : UsersEntity) (newRole : Role)
    (h : goodState st2) (hs : findUserById st2.store id = some user)
    (hok : ¬(user.role = Role.admin ∧ newRole ≠ Role.admin ∧ adminCount st2.store ≤ 1)) :
    goodState (updateRoleCommit st2 id user newRole).state := by
  obtain ⟨hnd, hco, hcnt⟩ := h
  obtain ⟨hmem, hid⟩ := findUserById_mem _ _ _ hs
  refine ⟨?_, cacheCoherent_commit st2 id user newRole hco hs, ?_⟩
  · show idsNodup (updateStoreRole st2.store id { user with role := newRole })
    unfold idsNodup
    rw [updateStoreRole_map_id st2.store id { user with role := newRole } hid]
    exact hnd
  · show 1 ≤ adminCount (updateStoreRole st2.store id { user with role := newRole })
    have heq := adminCount_updateStoreRole st2.store id { user with role := newRole } user
      hnd hmem hid
    by_cases h1 : user.role = Role.admin
    · rw [if_pos h1] at heq
      by_cases h2 : newRole = Role.admin
      · rw [if_pos (show ({ user with role := newRole } : UsersEntity).role = Role.admin
          from h2)] at heq
        omega
      · rw [if_neg (show ¬ ({ user with role := newRole } : UsersEntity).role = Role.admin
          from h2)] at heq
        have h3 : ¬ adminCount st2.store ≤ 1 := fun hle => hok ⟨h1, h2, hle⟩
        omega
    · rw [if_neg h1] at heq
      by_cases h2 : newRole = Role.admin
      · rw [if_pos (show ({ user with role := newRole } : UsersEntity).role = Role.admin
          from h2)] at heq
        omega
      · rw [if_neg (show ¬ ({ user with role := newRole } : UsersEntity).role = Role.admin
          from h2)] at heq
        omega

/-- Unfolding of `updateRole` over the outcome of its `findById` call. -/
theorem updateRole_eq (st : SysState) (id : Nat) (newRole : Role) :
    updateRole st id newRole =
      match (findById st id).result with
      | .error e => { result := .error e, state := (findById st id).state }
      | .ok user =>
        if user.role = Role.admin ∧ newRole ≠ Role.admin then
          if adminCount (findById st id).state.store ≤ 1 then
            { result := .error (.conflict "Cannot downgrade the last admin user"),
              state := (findById st id).state }
          else updateRoleCommit (findById st id).state id user newRole
        else updateRoleCommit (findById st id).state id user newRole := rfl

/-- `updateRole` when the load inside the transaction fails. -/
theorem updateRole_find_err (st : SysState) (id : Nat) (newRole : Role) (e : ServiceError)
    (h : (findById st id).result = .error e) :
    updateRole st id newRole = { result := .error e, state := (findById st id).state } := by
  rw [updateRole_eq, h]

/-- `updateRole` when the load inside the transaction succeeds. -/
theorem updateRole_find_ok (st : SysState) (id : Nat) (newRole : Role) (user : UsersEntity)
    (h : (findById st id).result = .ok user) :
    updateRole st id newRole =
      if user.role = Role.admin ∧ newRole ≠ Role.admin then
        if adminCount (findById st id).state.store ≤ 1 then
          { result := .error (.conflict "Cannot downgrade the last admin user"),
            state := (findById st id).state }
        else updateRoleCommit (findById st id).state id user newRole
      else updateRoleCommit (findById st id).state id user newRole := by
  rw [updateRole_eq, h]

/-- With a coherent cache, `findById` returns the store row for the id. -/
theorem findById_result_of_store (st : SysState) (id : Nat) (u : UsersEntity)
    (hco : cacheCoherent st) (hu : findUserById st.store id = some u) :
    (findById st id).result = .ok u := by
  cases hc : cacheGet st.cache id with
  | some v =>
    have hv := hco id v hc
    rw [findById_cache_hit st id v hc]
    rw [hu] at hv
    cases hv
    rfl
  | none => rw [findById_cache_miss_store_hit st id u hc hu]

/-- `updateRole` fails with the last-admin Conflict exactly when the
target is an admin, the new role is not, and at most one admin exists. -/
theorem updateRole_conflict_iff (st : SysState) (id : Nat) (newRole : Role)
    (hco : cacheCoherent st) (u : UsersEntity) (hu : findUserById st.store id = some u) :
    ((updateRole st id newRole).result =
        .error (.conflict "Cannot downgrade the last admin user") ↔
      (u.role = Role.admin ∧ newRole ≠ Role.admin ∧ adminCount st.store ≤ 1)) := by
  have hfr : (findById st id).result = .ok u := findById_result_of_store st id u hco hu
  have hst : (findById st id).state.store = st.store := findById_store st id
  rw [updateRole_find_ok st id newRole u hfr]
  by_cases h1 : u.role = Role.admin ∧ newRole ≠ Role.admin
  · by_cases h2 : adminCount (findById st id).state.store ≤ 1
    · rw [if_pos h1, if_pos h2]
      constructor
      · intro _
        exact ⟨h1.1, h1.2, by rwa [hst] at h2⟩
      · intro _
        rfl
    · rw [if_pos h1, if_neg h2]
      constructor
      · intro hcommit
        simp [updateRoleCommit] at hcommit
      · intro hc2
        exact absurd (by rw [hst]; exact hc2.2.2 :
          adminCount (findById st id).state.store ≤ 1) h2
  · rw [if_neg h1]
    constructor
    · intro hcommit
      simp [updateRoleCommit] at hcommit
    · intro hc2
      exact absurd ⟨hc2.1, hc2.2.1⟩ h1

/-- On any failure, the role-update transaction leaves the store as it
was (only the in-memory cache may have been populated by the read). -/
theorem updateRole_error_store (st : SysState) (id : Nat) (newRole : Role)
    (e : ServiceError) (h : (updateRole st id newRole).result = .error e) :
    (updateRole st id newRole).state.store = st.store := by
  have hst : (findById st id).state.store = st.store := findById_store st id
  cases hr : (findById st id).result with
  | error e2 =>
    rw [updateRole_find_err st id newRole e2 hr]
    exact hst
  | ok user =>
    rw [updateRole_find_ok st id newRole user hr] at h ⊢
    by_cases h1 : user.role = Role.admin ∧ newRole ≠ Role.admin
    · by_cases h2 : adminCount (findById st id).state.store ≤ 1
      · rw [if_pos h1, if_pos h2]
        exact hst
      · rw [if_pos h1, if_neg h2] at h
        simp [updateRoleCommit] at h
    · rw [if_neg h1] at h
      simp [updateRoleCommit] at h

/-- One role update preserves the state invariant, in particular it never
removes the last admin. -/
theorem goodState_updateRole (st : SysState) (id : Nat) (newRole : Role)
    (h : goodState st) : goodState (updateRole st id newRole).state := by
  obtain ⟨hnd, hco, hcnt⟩ := h
  have hst : (findById st id).state.store = st.store := findById_store st id
  have hgoodF : goodState (findById st id).state := by
    refine ⟨?_, cacheCoherent_findById st id hco, ?_⟩
    · rw [hst]; exact hnd
    · rw [hst]; exact hcnt
  cases hr : (findById st id).result with
  | error e =>
    rw [updateRole_find_err st id newRole e hr]
    exact hgoodF
  | ok user =>
    rw [updateRole_find_ok st id newRole user hr]
    have hu : findUserById st.store id = some user := findById_ok_store st id user hco hr
    have huF : findUserById (findById st id).state.store id = some user := by
      rw [hst]; exact hu
    by_cases h1 : user.role = Role.admin ∧ newRole ≠ Role.admin
    · by_cases h2 : adminCount (findById st id).state.store ≤ 1
      · rw [if_pos h1, if_pos h2]
        exact hgoodF
      · rw [if_pos h1, if_neg h2]
        exact goodState_commit _ id user newRole hgoodF huF fun hc2 => h2 hc2.2.2
    · rw [if_neg h1]
      exact goodState_commit _ id user newRole hgoodF huF fun hc2 => h1 ⟨hc2.1, hc2.2.1⟩

/-- Any sequence of role updates preserves the state invariant. -/
theorem goodState_applyRoleUpdates (st : SysState) (ops : List (Nat × Role))
    (h : goodState st) : goodState (applyRoleUpdates st ops) := by
  induction ops generalizing st with
  | nil => exact h
  | cons op ops ih =>
    obtain ⟨i, r⟩ := op
    exact ih _ (goodState_updateRole st i r h)

/-- The access check as a single owner-or-admin decision. -/
theorem assertCanAccess_eq (todo : TodoEntity) (user : JwtUser) :
    assertCanAccess todo user =
      if user.role = Role.admin ∨ todo.ownerId = user.id then .ok ()
      else .error (.forbidden "You are not allowed to access this resource") := by
  unfold assertCanAccess
  by_cases h1 : user.role = Role.admin
  · simp [h1]
  · by_cases h2 : todo.ownerId = user.id
    · simp [h1, h2]
    · simp [h1, h2]

/-- A todo lookup by primary key returns a member with that key. -/
theorem findTodoById_mem (db : List TodoEntity) (id : Nat) (t : TodoEntity)
    (h : findTodoById db id = some t) : t ∈ db ∧ t.id = id := by
  refine ⟨List.mem_of_find?_eq_some h, ?_⟩
  have := List.find?_some h
  simpa using this

/-- Unfolding `findOneTodo` once the todo was found. -/
theorem findOneTodo_eq_found (db : List TodoEntity) (id : Nat) (user : JwtUser)
    (todo : TodoEntity) (hf : findTodoById db id = some todo) :
    findOneTodo db id user =
      match assertCanAccess todo user with
      | .error e => .error e
      | .ok _ => .ok todo := by
  unfold findOneTodo; rw [hf]

/-- Unfolding `updateTodo` once the todo was found. -/
theorem updateTodo_eq_found (db : List TodoEntity) (id : Nat) (user : JwtUser)
    (dto : UpdateTodoDto) (todo : TodoEntity) (hf : findTodoById db id = some todo) :
    updateTodo db id user dto =
      match assertCanAccess todo user with
      | .error e => (.error e, db)
      | .ok _ =>
        (.ok (applyUpdate todo dto),
          db.map fun t => if t.id == id then applyUpdate todo dto else t) := by
  unfold updateTodo; rw [hf]

/-- Unfolding `removeTodo` once the todo was found. -/
theorem removeTodo_eq_found (db : List TodoEntity) (id : Nat) (user : JwtUser)
    (todo : TodoEntity) (hf : findTodoById db id = some todo) :
    removeTodo db id user =
      match assertCanAccess todo user with
      | .error e => (.error e, db)
      | .ok _ => (.ok true, db.filter fun t => t.id != todo.id) := by
  unfold removeTodo; rw [hf]

/-- Updating rows whose key occurs nowhere in the list is a no-op. -/
theorem map_update_of_no_key {α : Type} (key : α → Nat) (db : List α) (id : Nat)
    (updated : α) (h : ∀ x ∈ db, key x ≠ id) :
    (db.map fun t => if key t == id then updated else t) = db := by
  induction db with
  | nil => rfl
  | cons u us ih =>
    have hu : (key u == id) = false := by simpa using h u (by simp)
    simp only [List.map_cons, hu, Bool.false_eq_true, if_false]
    rw [ih fun x hx => h x (by simp [hx])]

/-- With unique keys, replacing the found row preserves any field the
replacement agrees on, across the whole list. -/
theorem map_field_after_update {α β : Type} (key : α → Nat) (fld : α → β) (db : List α)
    (id : Nat) (updated t0 : α) (hn : (db.map key).Nodup)
    (h0 : db.find? (fun t => key t == id) = some t0) (hfld : fld updated = fld t0) :
    (db.map fun t => if key t == id then updated else t).map fld = db.map fld := by
  induction db with
  | nil => cases h0
  | cons u us ih =>
    simp only [List.map_cons, List.nodup_cons, List.mem_map] at hn
    obtain ⟨hnotin, hnd⟩ := hn
    by_cases hk : key u = id
    · have hb : (key u == id) = true := by simpa using hk
      rw [List.find?_cons_of_pos _ (by simpa using hk)] at h0
      cases h0
      have hrest : (us.map fun t => if key t == id then updated else t) = us :=
        map_update_of_no_key key us id updated fun x hx hxk =>
          hnotin ⟨x, hx, by rw [hxk, hk]⟩
      simp only [List.map_cons, hb, if_true, hrest, hfld]
    · have hb : (key u == id) = false := by simpa using hk
      rw [List.find?_cons_of_neg _ (by simpa using hk)] at h0
      simp only [List.map_cons, hb, Bool.false_eq_true, if_false]
      rw [ih hnd h0]

/-- After replacing the found row, looking the key up returns the
replacement. -/
theorem find_after_update {α : Type} (key : α → Nat) (db : List α) (id : Nat)
    (updated t0 : α) (h0 : db.find? (fun t => key t == id) = some t0)
    (hu : key updated = id) :
    (db.map fun t => if key t == id then updated else t).find? (fun t => key t == id) =
      some updated := by
  induction db with
  | nil => cases h0
  | cons u us ih =>
    by_cases hk : key u = id
    · have hb : (key u == id) = true := by simpa using hk
      simp only [List.map_cons, hb, if_true]
      exact List.find?_cons_of_pos _ (by simpa using hu)
    · have hb : (key u == id) = false := by simpa using hk
      rw [List.find?_cons_of_neg _ (by simpa using hk)] at h0
      simp only [List.map_cons, hb, Bool.false_eq_true, if_false]
      rw [List.find?_cons_of_neg _ (by simpa using hk)]
      exact ih h0

/-- C1: the claimed equivalence fails on the code.  At the failing input —
non-admin requester 1, isDone filter "true", search term "foo" — the
where-clause built by buildWhereConditions/combineWhereConditions matches
a completed todo owned by user 2 whose title contains "foo", although the
claimed semantics ((all non-search filters conjoined) AND (title contains
term OR description contains term)) rejects it because the ownership
filter fails.  The flat array the code builds is read by the store as a
disjunction of partially-combined objects, so a row failing a non-search
filter can still match. -/
theorem c1_combine_leaks_on_failing_input :
    whereMatches
        (buildWhereConditions 1000 { id := 1, username := "u1", role := Role.user }
          { isDone := some "true", search := some "foo" })
        { id := 10, title := "foo things", description := none, isDone := true,
          ownerId := 2, createdAt := 5 } = true
  ∧ specListFilter 1000 { id := 1, username := "u1", role := Role.user }
        { isDone := some "true", search := some "foo" }
        { id := 10, title := "foo things", description := none, isDone := true,
          ownerId := 2, createdAt := 5 } = false :=
  ⟨by decide, by decide⟩

/-- C2: updateRole fails with Conflict "Cannot downgrade the last admin
user" iff the target row is an admin, the new role is not admin, and the
admin count read within the transaction is at most one; on any failure
the store is left unchanged (rollback); and starting from a well-formed
state with at least one admin, no sequence of role updates ever brings
the admin count to zero. -/
theorem c2_last_admin_guard (st : SysState) (id : Nat) (newRole : Role)
    (h : goodState st) :
    (∀ u, findUserById st.store id = some u →
        ((updateRole st id newRole).result =
            .error (.conflict "Cannot downgrade the last admin user") ↔
          (u.role = Role.admin ∧ newRole ≠ Role.admin ∧ adminCount st.store ≤ 1)))
  ∧ (∀ e, (updateRole st id newRole).result = .error e →
        (updateRole st id newRole).state.store = st.store)
  ∧ (∀ ops, 1 ≤ adminCount (applyRoleUpdates st ops).store) :=
  ⟨fun u hu => updateRole_conflict_iff st id newRole h.2.1 u hu,
   fun e he => updateRole_error_store st id newRole e he,
   fun ops => (goodState_applyRoleUpdates st ops h).2.2⟩

/-- Witness for C2: in a store whose only account is the admin alice,
downgrading her fails with the Conflict. -/
theorem c2_last_admin_guard_witness :
    (updateRole aliceOnlyState 1 Role.user).result =
      .error (.conflict "Cannot downgrade the last admin user") := by
  have hg : goodState aliceOnlyState := by
    refine ⟨?_, ?_, by decide⟩
    · unfold idsNodup
      decide
    · intro i u hi
      simp [aliceOnlyState, cacheGet] at hi
  exact ((c2_last_admin_guard aliceOnlyState 1 Role.user hg).1 alice rfl).mpr
    ⟨rfl, by decide, by decide⟩

/-- C3 counterexample: the two failing credential runs produce different
external messages — "User not found" versus "Wrong password" — and
neither equals the constant "invalid credentials" the claim asserts, so
the message does reveal which sub-case occurred. -/
theorem c3_messages_differ_counterexample :
    validateUser eqCompare [alice] "carol" "pw" = .error (.unauthorized "User not found")
  ∧ validateUser eqCompare [alice] "alice" "wrong" =
      .error (.unauthorized "Wrong password")
  ∧ ("User not found" : String) ≠ "Wrong password"
  ∧ ("User not found" : String) ≠ "invalid credentials"
  ∧ ("Wrong password" : String) ≠ "invalid credentials" :=
  ⟨rfl, rfl, by decide, by decide, by decide⟩

/-- C3 amended: both failing sub-cases of validateUser raise the
Unauthenticated outcome, but with distinct messages — "User not found"
when no account matches the identifier, "Wrong password" when the secret
comparison fails. -/
theorem c3_validateUser_distinct_messages (compare : String → String → Bool)
    (db : List UsersEntity) (ident pw : String) :
    (findByUsernameOrEmail db ident = none →
        validateUser compare db ident pw = .error (.unauthorized "User not found"))
  ∧ (∀ u, findByUsernameOrEmail db ident = some u → compare pw u.password = false →
        validateUser compare db ident pw = .error (.unauthorized "Wrong password")) := by
  constructor
  · intro h
    unfold validateUser
    rw [h]
  · intro u h hc
    unfold validateUser
    rw [h]
    simp [hc]

/-- Witness for C3's amended theorem: a wrong secret for alice yields the
"Wrong password" message. -/
theorem c3_validateUser_distinct_messages_witness :
    validateUser eqCompare [alice] "alice" "wrong" =
      .error (.unauthorized "Wrong password") :=
  (c3_validateUser_distinct_messages eqCompare [alice] "alice" "wrong").2
    alice rfl (by decide)

/-- C4: for an existing todo, the access check succeeds iff the requester
is an admin or owns the todo; when denied, findOneTodo, updateTodo and
removeTodo all raise Forbidden with the message "You are not allowed to
access this resource" and update/delete leave the store unchanged. -/
theorem c4_owner_or_admin (db : List TodoEntity) (id : Nat) (user : JwtUser)
    (dto : UpdateTodoDto) (t : TodoEntity) (hf : findTodoById db id = some t) :
    (assertCanAccess t user = .ok () ↔ (user.role = Role.admin ∨ t.ownerId = user.id))
  ∧ (¬(user.role = Role.admin ∨ t.ownerId = user.id) →
        findOneTodo db id user =
          .error (.forbidden "You are not allowed to access this resource")
      ∧ updateTodo db id user dto =
          (.error (.forbidden "You are not allowed to access this resource"), db)
      ∧ removeTodo db id user =
          (.error (.forbidden "You are not allowed to access this resource"), db)) := by
  constructor
  · rw [assertCanAccess_eq]
    by_cases hca : user.role = Role.admin ∨ t.ownerId = user.id
    · simp [hca]
    · simp [hca]
  · intro hden
    have ha : assertCanAccess t user =
        .error (.forbidden "You are not allowed to access this resource") := by
      rw [assertCanAccess_eq, if_neg hden]
    refine ⟨?_, ?_, ?_⟩
    · rw [findOneTodo_eq_found db id user t hf, ha]
    · rw [updateTodo_eq_found db id user dto t hf, ha]
    · rw [removeTodo_eq_found db id user t hf, ha]

/-- Witness for C4: a non-admin non-owner is denied deletion with the
Forbidden message and the store stays intact. -/
theorem c4_owner_or_admin_witness :
    removeTodo [sampleTodo] 7 requester1 =
      (.error (.forbidden "You are not allowed to access this resource"), [sampleTodo]) :=
  ((c4_owner_or_admin [sampleTodo] 7 requester1 {} sampleTodo rfl).2 (by decide)).2.2

/-- The commit path returns the entity with the new role. -/
theorem updateRoleCommit_result (st2 : SysState) (id : Nat) (user : UsersEntity)
    (newRole : Role) :
    (updateRoleCommit st2 id user newRole).result = .ok { user with role := newRole } := rfl

/-- The commit path writes the updated entity into the cache. -/
theorem updateRoleCommit_cacheGet (st2 : SysState) (id : Nat) (user : UsersEntity)
    (newRole : Role) :
    cacheGet (updateRoleCommit st2 id user newRole).state.cache id =
      some { user with role := newRole } :=
  cacheGet_cacheSet_self st2.cache id { user with role := newRole }

/-- A successful role update leaves the updated account in the cache, and
its role is the requested one. -/
theorem updateRole_ok_cache (st : SysState) (id : Nat) (newRole : Role) (u2 : UsersEntity)
    (h : (updateRole st id newRole).result = .ok u2) :
    cacheGet (updateRole st id newRole).state.cache id = some u2 ∧ u2.role = newRole := by
  cases hr : (findById st id).result with
  | error e =>
    rw [updateRole_find_err st id newRole e hr] at h
    cases h
  | ok user =>
    rw [updateRole_find_ok st id newRole user hr] at h ⊢
    by_cases h1 : user.role = Role.admin ∧ newRole ≠ Role.admin
    · by_cases h2 : adminCount (findById st id).state.store ≤ 1
      · rw [if_pos h1, if_pos h2] at h
        cases h
      · rw [if_pos h1, if_neg h2] at h ⊢
        rw [updateRoleCommit_result] at h
        have hu2 : { user with role := newRole } = u2 := by simpa using h
        rw [← hu2]
        exact ⟨updateRoleCommit_cacheGet _ id user newRole, rfl⟩
    · rw [if_neg h1] at h ⊢
      rw [updateRoleCommit_result] at h
      have hu2 : { user with role := newRole } = u2 := by simpa using h
      rw [← hu2]
      exact ⟨updateRoleCommit_cacheGet _ id user newRole, rfl⟩

/-- C5: after updateRole commits, the cache entry for the id holds the
updated account (with the new role) and an immediate findById answers
from the cache without a store query; findById always consults the cache
first (no store access on a hit), populates the cache on a store hit, and
fails NotFound "User not found" exactly when the id is absent from both
cache and store. -/
theorem c5_cache_readthrough (st : SysState) (id : Nat) (newRole : Role) :
    (∀ u2, (updateRole st id newRole).result = .ok u2 →
        u2.role = newRole
      ∧ findById (updateRole st id newRole).state id =
          { result := .ok u2, state := (updateRole st id newRole).state,
            storeQueried := false })
  ∧ (∀ u, cacheGet st.cache id = some u →
        findById st id = { result := .ok u, state := st, storeQueried := false })
  ∧ (cacheGet st.cache id = none → ∀ u, findUserById st.store id = some u →
        findById st id =
          { result := .ok u, state := { st with cache := cacheSet st.cache id u },
            storeQueried := true })
  ∧ ((findById st id).result = .error (.notFound "User not found") ↔
      (cacheGet st.cache id = none ∧ findUserById st.store id = none)) := by
  refine ⟨?_, ?_, ?_, ?_, ?_⟩
  · intro u2 h
    obtain ⟨hc, hrole⟩ := updateRole_ok_cache st id newRole u2 h
    exact ⟨hrole, findById_cache_hit _ id u2 hc⟩
  · intro u hc
    exact findById_cache_hit st id u hc
  · intro hc u hs
    exact findById_cache_miss_store_hit st id u hc hs
  · intro he
    cases hc : cacheGet st.cache id with
    | some v =>
      rw [findById_cache_hit st id v hc] at he
      cases he
    | none =>
      cases hs : findUserById st.store id with
      | some v =>
        rw [findById_cache_miss_store_hit st id v hc hs] at he
        cases he
      | none => exact ⟨rfl, rfl⟩
  · intro hcs
    rw [findById_absent st id hcs.1 hcs.2]

/-- Witness for C5: in the two-admin state, downgrading alice commits and
an immediate findById answers her new role from the cache without a
store read. -/
theorem c5_cache_readthrough_witness :
    findById (updateRole twoAdminState 1 Role.user).state 1 =
      { result := .ok { alice with role := Role.user },
        state := (updateRole twoAdminState 1 Role.user).state,
        storeQueried := false } :=
  ((c5_cache_readthrough twoAdminState 1 Role.user).1
    { alice with role := Role.user } rfl).2

/-- C6: createTodo assigns ownerId from the authenticated user
unconditionally (the create dto carries no owner field at all) and
defaults the completion flag to false when absent; a successful
updateTodo returns a todo with the prior ownerId, every field absent
from the patch keeps its prior value, and (with unique primary keys) the
stored ownerId column is untouched across the update. -/
theorem c6_owner_immutable (owner : JwtUser) (dto : CreateTodoDto) (nextId now : Nat)
    (db : List TodoEntity) (id : Nat) (user : JwtUser) (patch : UpdateTodoDto) :
    (createTodo owner dto nextId now).ownerId = owner.id
  ∧ (dto.isDone = none → (createTodo owner dto nextId now).isDone = false)
  ∧ (∀ t t2, findTodoById db id = some t → (updateTodo db id user patch).1 = .ok t2 →
        t2.ownerId = t.ownerId
      ∧ (patch.title = none → t2.title = t.title)
      ∧ (patch.description = none → t2.description = t.description)
      ∧ (patch.isDone = none → t2.isDone = t.isDone)
      ∧ ((db.map (·.id)).Nodup →
          (updateTodo db id user patch).2.map (·.ownerId) = db.map (·.ownerId))) := by
  refine ⟨rfl, ?_, ?_⟩
  · intro h
    simp [createTodo, h]
  · intro t t2 hf hok
    rw [updateTodo_eq_found db id user patch t hf] at hok
    cases hac : assertCanAccess t user with
    | error e =>
      rw [hac] at hok
      cases hok
    | ok unitv =>
      rw [hac] at hok
      have ht2 : applyUpdate t patch = t2 := by simpa using hok
      refine ⟨?_, ?_, ?_, ?_, ?_⟩
      · rw [← ht2]
        rfl
      · intro h
        rw [← ht2]
        simp [applyUpdate, h]
      · intro h
        rw [← ht2]
        simp [applyUpdate, h, spreadOpt]
      · intro h
        rw [← ht2]
        simp [applyUpdate, h]
      · intro hn
        rw [updateTodo_eq_found db id user patch t hf, hac]
        exact map_field_after_update (fun x : TodoEntity => x.id)
          (fun x : TodoEntity => x.ownerId) db id (applyUpdate t patch) t hn
          (show List.find? (fun x => x.id == id) db = some t from hf)
          (show (applyUpdate t patch).ownerId = t.ownerId from rfl)

/-- Witness for C6: an admin patching only the completion flag leaves the
stored ownerId column exactly as it was. -/
theorem c6_owner_immutable_witness :
    (updateTodo [sampleTodo] 7 { id := 9, username := "root", role := Role.admin }
        { isDone := some true }).2.map (fun x => x.ownerId) = [2] := by
  have h := ((c6_owner_immutable requester1 { title := "x" } 0 0 [sampleTodo] 7
      { id := 9, username := "root", role := Role.admin } { isDone := some true }).2.2
      sampleTodo { sampleTodo with isDone := true } rfl rfl).2.2.2.2 (by decide)
  simpa [sampleTodo] using h

/-- C7: the effective page is max(1, given page or 1), the effective size
is min(100, max(1, given size or 10)) and skip is (page-1)*size, in the
todos helper and in the users list alike; out-of-range values are clamped
rather than rejected: size 150 becomes 100 and page 0 becomes 1. -/
theorem c7_pagination_clamping (q : QueryTodoDto) (db : List UsersEntity)
    (qu : QueryUserDto) :
    (buildPaginationParams q).page = max 1 (q.page.getD 1)
  ∧ (buildPaginationParams q).limit = min 100 (max 1 (q.limit.getD 10))
  ∧ (buildPaginationParams q).skip =
      ((buildPaginationParams q).page - 1) * (buildPaginationParams q).limit
  ∧ (findAllUsers db qu).pagination.page = max 1 (qu.page.getD 1)
  ∧ (findAllUsers db qu).pagination.limit = min 100 (max 1 (qu.limit.getD 10))
  ∧ buildPaginationParams { page := some 0, limit := some 150 } =
      { page := 1, limit := 100, skip := 0 } :=
  ⟨rfl, rfl, rfl, rfl, rfl, by decide⟩

/-- Let-free unfolding of `buildOrderClause`. -/
theorem buildOrderClause_unfold (q : QueryTodoDto) :
    buildOrderClause q =
      if allowedSortFields.contains (effSortField q) then
        .ok (effSortField q, toUpperStr (effSortOrder q))
      else
        .error (.badRequest ("Invalid sort field: " ++ effSortField q ++
          ". Allowed fields: " ++ String.intercalate ", " allowedSortFields)) := rfl

/-- The Bool allow-list test agrees with list membership. -/
theorem contains_allowedSortFields (s : String) :
    allowedSortFields.contains s = true ↔ s ∈ allowedSortFields := by
  simp [List.contains, List.elem_iff]

/-- C8: buildOrderClause raises BadRequest exactly when the effective sort
field is outside the allow-list id, title, isDone, createdAt, updatedAt;
the message names the invalid field and lists exactly that set; an absent
sort field defaults to createdAt and an absent direction to DESC. -/
theorem c8_sort_allowlist (q : QueryTodoDto) :
    ((∃ m, buildOrderClause q = .error (.badRequest m)) ↔
        effSortField q ∉ allowedSortFields)
  ∧ (effSortField q ∉ allowedSortFields →
        buildOrderClause q = .error (.badRequest ("Invalid sort field: " ++
          effSortField q ++ ". Allowed fields: " ++
          String.intercalate ", " allowedSortFields)))
  ∧ String.intercalate ", " allowedSortFields = "id, title, isDone, createdAt, updatedAt"
  ∧ (q.sortBy = none → effSortField q = "createdAt")
  ∧ (q.sortBy = none → q.sortOrder = none →
        buildOrderClause q = .ok ("createdAt", "DESC")) := by
  refine ⟨⟨?_, ?_⟩, ?_, by decide, ?_, ?_⟩
  · rintro ⟨m, hm⟩ hmem
    rw [buildOrderClause_unfold,
      if_pos ((contains_allowedSortFields (effSortField q)).mpr hmem)] at hm
    cases hm
  · intro hno
    refine ⟨"Invalid sort field: " ++ effSortField q ++ ". Allowed fields: " ++
      String.intercalate ", " allowedSortFields, ?_⟩
    rw [buildOrderClause_unfold,
      if_neg fun hc => hno ((contains_allowedSortFields (effSortField q)).mp hc)]
  · intro hno
    rw [buildOrderClause_unfold,
      if_neg fun hc => hno ((contains_allowedSortFields (effSortField q)).mp hc)]
  · intro h1
    simp [effSortField, h1]
  · intro h1 h2
    have e1 : effSortField q = "createdAt" := by simp [effSortField, h1]
    have e2 : effSortOrder q = "desc" := by simp [effSortOrder, h2]
    rw [buildOrderClause_unfold, e1, e2, if_pos (by decide)]
    have hup : toUpperStr "desc" = "DESC" := by decide
    rw [hup]

/-- Witness for C8: sortBy "invalidField" yields the BadRequest naming it
and the exact allowed set. -/
theorem c8_sort_allowlist_witness :
    buildOrderClause { sortBy := some "invalidField" } =
      .error (.badRequest ("Invalid sort field: invalidField. Allowed fields: " ++
        String.intercalate ", " allowedSortFields)) :=
  (c8_sort_allowlist { sortBy := some "invalidField" }).2.1 (by decide)

/-- C9: registration fails with Conflict "Username already exists" when an
account with the requested username exists, before any hash computation
(zero hash-primitive calls, store untouched); otherwise the secret is
hashed once, the account persisted, and the value returned is the account
stripped of its password field (the PublicUser type has no password). -/
theorem c9_register_conflict_before_hash (hash : String → String) (nextId now : Nat)
    (db : List UsersEntity) (dto : CreateUsersDto) :
    ((∃ u ∈ db, u.username = dto.username) →
        createUser hash nextId now db dto =
          { result := .error (.conflict "Username already exists"), store := db,
            hashCalls := 0 })
  ∧ ((∀ u ∈ db, u.username ≠ dto.username) →
        createUser hash nextId now db dto =
          { result := .ok (stripPassword (mkNewUser hash nextId now dto)),
            store := db ++ [mkNewUser hash nextId now dto], hashCalls := 1 }) := by
  constructor
  · rintro ⟨u, hu, he⟩
    cases hfind : findUserByUsername db dto.username with
    | some v =>
      unfold createUser
      rw [hfind]
    | none =>
      exfalso
      unfold findUserByUsername at hfind
      have := List.find?_eq_none.mp hfind u hu
      simp [he] at this
  · intro hnone
    have hfind : findUserByUsername db dto.username = none := by
      unfold findUserByUsername
      rw [List.find?_eq_none]
      intro x hx
      simpa using hnone x hx
    unfold createUser
    rw [hfind]

/-- Witness for C9: registering "alice" again conflicts without hashing. -/
theorem c9_register_conflict_witness :
    createUser (fun s => String.append s "#h") 5 100 [alice]
        { username := "alice", email := "z@x.com", password := "pw" } =
      { result := .error (.conflict "Username already exists"), store := [alice],
        hashCalls := 0 } :=
  (c9_register_conflict_before_hash (fun s => String.append s "#h") 5 100 [alice]
      { username := "alice", email := "z@x.com", password := "pw" }).1
    ⟨alice, by simp, rfl⟩

/-- Membership in the descending insertion comes from the inserted element
or the old list. -/
theorem mem_insertByCreatedAtDesc (u x : UsersEntity) (l : List UsersEntity)
    (h : x ∈ insertByCreatedAtDesc u l) : x = u ∨ x ∈ l := by
  induction l with
  | nil =>
    unfold insertByCreatedAtDesc at h
    simpa using h
  | cons v vs ih =>
    unfold insertByCreatedAtDesc at h
    by_cases hc : v.createdAt ≤ u.createdAt
    · rw [if_pos hc] at h
      simpa using h
    · rw [if_neg hc] at h
      rcases List.mem_cons.mp h with h | h
      · exact Or.inr (by simp [h])
      · rcases ih h with h | h
        · exact Or.inl h
        · exact Or.inr (by simp [h])

/-- The descending sort returns only members of its input. -/
theorem mem_sortByCreatedAtDesc (x : UsersEntity) (l : List UsersEntity)
    (h : x ∈ sortByCreatedAtDesc l) : x ∈ l := by
  induction l with
  | nil =>
    unfold sortByCreatedAtDesc at h
    simp at h
  | cons v vs ih =>
    unfold sortByCreatedAtDesc at h
    rcases mem_insertByCreatedAtDesc v x _ h with h | h
    · simp [h]
    · simp [ih h]

/-- C10: the user list returns the stored entities unmodified — every
element of the returned page is literally a member of the store, so the
password-hash column is still present on it; the service itself strips
nothing on list reads (stripping is left to the serialization
boundary). -/
theorem c10_findAll_returns_raw_entities (db : List UsersEntity) (q : QueryUserDto) :
    ∀ u ∈ (findAllUsers db q).users, u ∈ db ∧ ∃ v ∈ db, u = v ∧ u.password = v.password := by
  intro u hu
  have h1 : u ∈ sortByCreatedAtDesc db := by
    have h2 := List.take_subset _ _ hu
    exact List.drop_subset _ _ h2
  have hmem : u ∈ db := mem_sortByCreatedAtDesc u db h1
  exact ⟨hmem, u, hmem, rfl, rfl⟩

/-- Witness for C10: alice is returned by the default list page, password
hash included, as a literal member of the store. -/
theorem c10_findAll_returns_raw_entities_witness :
    alice ∈ [alice] ∧ ∃ v ∈ [alice], alice = v ∧ alice.password = v.password :=
  c10_findAll_returns_raw_entities [alice] {} alice (by decide)

end ProjectCB
